import Mathlib

/-
Verification development for the MCP-Tool-Orchestrator repository
(src/app/main.py: tool server with registry; src/app/client.py: agent
client with Gemini loop, finalization and deterministic fallback planner).

The Python code is shallowly embedded: JSON values are an inductive type
whose scalars carry their textual rendering (so float/int formatting is
abstracted away), the filesystem touched by store_in_file is an explicit
state value, HTTP tool calls are an environment function returning
Except (a raised requests exception is an error value), and the
generative service is an oracle giving the n-th chat response.
-/

namespace MCP

/-- JSON value as decoded by r.json() on the client, or produced by a
handler on the server. A scalar (string, number, bool, null) is a prim
carrying the text Python renders it as; container rendering below is an
abstraction of str()/json.dumps and no claim depends on its exact text. -/
inductive JVal where
  | prim (s : String)
  | obj (fields : List (String × JVal))
  | arr (elems : List JVal)

mutual

/-- Textual rendering of a JSON value, standing in for both Python str()
and json.dumps at the abstraction level described on JVal. -/
def pyStr : JVal → String
  | .prim s => s
  | .obj fs => "\x7b" ++ pyStrFields fs ++ "\x7d"
  | .arr es => "[" ++ pyStrElems es ++ "]"

def pyStrFields : List (String × JVal) → String
  | [] => ""
  | [(k, v)] => k ++ ": " ++ pyStr v
  | (k, v) :: rest => k ++ ": " ++ pyStr v ++ ", " ++ pyStrFields rest

def pyStrElems : List JVal → String
  | [] => ""
  | [v] => pyStr v
  | v :: rest => pyStr v ++ ", " ++ pyStrElems rest

end

/-- Python dict lookup (d.get(k) / k in d) on an association list. -/
def lookupField (l : List (String × JVal)) (k : String) : Option JVal :=
  match l with
  | [] => none
  | (k', v) :: rest => if k' = k then some v else lookupField rest k

/-- Python dict assignment d[k] = v keeping insertion order: an existing
key is overwritten in place, a new key is appended. Dicts built by
assignment from an empty dict never hold a duplicate key, so replacing
the first occurrence models dict semantics exactly. -/
def setAssoc {κ β : Type} [DecidableEq κ] (l : List (κ × β)) (k : κ) (v : β) :
    List (κ × β) :=
  match l with
  | [] => [(k, v)]
  | (k', v') :: rest => if k' = k then (k, v) :: rest else (k', v') :: setAssoc rest k v

/-- String lookup in a string-valued argument mapping. -/
def lookupStr (l : List (String × String)) (k : String) : Option String :=
  match l with
  | [] => none
  | (k', v) :: rest => if k' = k then some v else lookupStr rest k

theorem setAssoc_idem {κ β : Type} [DecidableEq κ]
    (l : List (κ × β)) (k : κ) (v : β) :
    setAssoc (setAssoc l k v) k v = setAssoc l k v := by
  induction l with
  | nil => simp [setAssoc]
  | cons p rest ih =>
    obtain ⟨k', v'⟩ := p
    by_cases h : k' = k
    · simp [setAssoc, h]
    · simp [setAssoc, h, ih]

/-! Server side, src/app/main.py.

Paths model pathlib.Path: a flag for absoluteness plus the component list;
joining with an absolute right-hand side discards the left (pathlib
semantics of out_dir / file_name when file_name starts with a slash). -/

structure PyPath where
  absolute : Bool
  components : List String
deriving DecidableEq

/-- Split a character list at slashes (the pieces of s.split on a slash,
implemented structurally so the kernel can evaluate it). -/
def splitSlashAux (cur : List Char) : List Char → List (List Char)
  | [] => [cur.reverse]
  | c :: rest =>
    if c = '/' then cur.reverse :: splitSlashAux [] rest
    else splitSlashAux (c :: cur) rest

def headIsSlash : List Char → Bool
  | [] => false
  | c :: _ => c = '/'

/-- Parse a path string the way pathlib does: absolute iff it starts with
a slash; empty and single-dot components are dropped, parent-dir
components are kept. -/
def parsePath (s : String) : PyPath :=
  { absolute := headIsSlash s.data,
    components := ((splitSlashAux [] s.data).map String.mk).filter
      (fun c => c != "" && c != ".") }

/-- The pathlib division operator: a / b. -/
def pathJoin (a b : PyPath) : PyPath :=
  if b.absolute then b else { absolute := a.absolute, components := a.components ++ b.components }

/-- Path rendered back to a string, as str(Path) does. -/
def pathStr (p : PyPath) : String :=
  (if p.absolute then "/" else "") ++ String.intercalate "/" p.components

/-- OS-level resolution performed on a path when a file is opened:
a parent-dir component removes the preceding component (and is a no-op
at the root, like /.. on POSIX). -/
def resolveComps (acc : List String) : List String → List String
  | [] => acc
  | c :: rest => if c = ".." then resolveComps acc.dropLast rest else resolveComps (acc ++ [c]) rest

def resolvePath (p : PyPath) : PyPath :=
  { absolute := p.absolute, components := resolveComps [] p.components }

/-- Whether path p resolves to a location strictly inside directory d. -/
def pointsInside (d p : PyPath) : Bool :=
  ((resolvePath d).absolute == (resolvePath p).absolute)
    && (resolvePath d).components.isPrefixOf (resolvePath p).components
    && decide ((resolvePath d).components.length < (resolvePath p).components.length)

/-- The filesystem state touched by store_in_file: the set of created
directories and a mapping from resolved file path to content. -/
structure FS where
  dirs : List PyPath
  files : List (PyPath × String)

/-- mkdir of a single directory, a no-op when it already exists. -/
def addDir (ds : List PyPath) (d : PyPath) : List PyPath :=
  if d ∈ ds then ds else ds ++ [d]

/-- All the directories out_dir.mkdir(parents=True, exist_ok=True)
guarantees to exist: every components-wise ancestor of p including p. -/
def pathAncestors (p : PyPath) : List PyPath :=
  (List.range (p.components.length + 1)).map
    (fun i => { absolute := p.absolute, components := p.components.take i })

def mkdirParents (fs : FS) (p : PyPath) : FS :=
  { fs with dirs := (pathAncestors p).foldl addDir fs.dirs }

/-- The parent directory of a path. -/
def parentPath (p : PyPath) : PyPath :=
  { absolute := p.absolute, components := p.components.dropLast }

/-- Path.write_text: create or overwrite the file at the OS-resolved
destination. Raises IsADirectoryError when the destination is an
existing directory (file_name such as a single dot makes dest the
output directory itself), and FileNotFoundError when the destination's
parent directory does not exist (file_name with an intermediate slash);
fs.dirs stands for all directories existing on the system. -/
def writeText (fs : FS) (p : PyPath) (content : String) : Except String FS :=
  if resolvePath p ∈ fs.dirs then .error "IsADirectoryError"
  else if parentPath (resolvePath p) ∈ fs.dirs then
    .ok { fs with files := setAssoc fs.files (resolvePath p) content }
  else .error "FileNotFoundError"

/-- Stable stand-in for Path(of the main module).resolve().parent.parent,
the base directory the source comments call MCP/. -/
def baseDir : PyPath := { absolute := true, components := ["srv", "MCP"] }

def outDir : PyPath := pathJoin baseDir { absolute := false, components := ["output"] }

/-- The destination out_dir / file_name computed by store_in_file. -/
def store_dest (file_name : String) : PyPath := pathJoin outDir (parsePath file_name)

/-- store_in_file from src/app/main.py: reject an empty name, create the
output directory, write the file, return str(dest). The first component
is the filesystem state when the call returns or raises: the mkdir side
effect persists even when the subsequent write raises. -/
def store_in_file (fs : FS) (file_name content : String) :
    FS × Except String String :=
  if file_name = "" then (fs, .error "file_name is required")
  else
    match writeText (mkdirParents fs outDir) (store_dest file_name) content with
    | .error e => (mkdirParents fs outDir, .error e)
    | .ok fs2 => (fs2, .ok (pathStr (store_dest file_name)))

/-- The TOOLS registry entry for store_in_file: file_name defaults to
None (which fails the same falsiness test as the empty string) and
content defaults to the empty string. Argument values are modeled as
strings, matching the declared string schema of this tool. -/
def store_tool (fs : FS) (args : List (String × String)) :
    FS × Except String String :=
  store_in_file fs ((lookupStr args "file_name").getD "") ((lookupStr args "content").getD "")

/-- One row built by list_processes from a psutil process entry; cpu and
mem carry the already-rounded percentages scaled to integers so that the
ordering the sort uses is exact. -/
structure ProcEntry where
  pid : Int
  cpu : Int
  mem : Int
  cmd : String
deriving DecidableEq

/-- Descending insertion keeping earlier entries first among ties, as
list.sort(key=cpu, reverse=True) does (stable sort): an element is
inserted before the first strictly smaller entry, so it stays ahead of
equal-cpu entries that came later in the original list. -/
def insertDesc (x : ProcEntry) : List ProcEntry → List ProcEntry
  | [] => [x]
  | y :: ys => if x.cpu < y.cpu then y :: insertDesc x ys else x :: y :: ys

def sortByCpuDesc : List ProcEntry → List ProcEntry
  | [] => []
  | x :: xs => insertDesc x (sortByCpuDesc xs)

/-- list_processes from src/app/main.py, given the raw entries gathered
from psutil.process_iter: sort by cpu descending, take the first
max(0, limit) entries (Python slicing clamps to the list length). -/
def list_processes (procs : List ProcEntry) (limit : Int) : List ProcEntry :=
  (sortByCpuDesc procs).take (max 0 limit).toNat

/-! Client side, src/app/client.py.

HTTP tool invocation (the call helper) is an environment function
returning Except: an error value is a raised RuntimeError, covering both
transport failures and 4xx statuses surfaced by raise_for_status (the
server maps a handler exception to HTTP 400). The generative service is
an oracle from the number of messages sent so far in the chat to the
response received, which covers every possible service behavior. -/

abbrev Args := List (String × String)

structure Env where
  listTools : Except String (List String)
  call : String → Args → Except String JVal

/-- One Gemini chat response: the function_call parts in candidate order
and the text accessor (empty string when the response carries no text). -/
structure GResponse where
  calls : List (String × Args)
  text : String

abbrev Svc := Nat → GResponse

/-- Python dict.get on a JSON value; a non-dict has no get attribute and
raises. -/
def jGet : JVal → String → Except String (Option JVal)
  | .obj fs, k => .ok (lookupField fs k)
  | _, _ => .error "AttributeError: get"

/-- Python bracket indexing on a JSON value; missing key or non-dict
raises. -/
def jIndex : JVal → String → Except String JVal
  | .obj fs, k =>
    match lookupField fs k with
    | some v => .ok v
    | none => .error ("KeyError: " ++ k)
  | _, _ => .error "TypeError: not subscriptable"

/-- Iterating over a JSON value as a list; a non-list raises. -/
def jElems : JVal → Except String (List JVal)
  | .arr es => .ok es
  | _ => .error "TypeError: not iterable"

/-- Effectful map that stops at the first failure, in list order, the way
a Python for loop raises out of the loop. -/
def mapME {α β : Type} (f : α → Except String β) : List α → Except String (List β)
  | [] => .ok []
  | x :: xs => do
    let y ← f x
    let ys ← mapME f xs
    return y :: ys

def sysinfoKeys : List String :=
  ["platform", "release", "version", "arch", "hostname", "uptime_sec",
   "total_mem_bytes", "free_mem_bytes", "cpu_count", "cpu_model"]

/-- Rendering of sysinfo.get(k) inside an f-string: an absent value is
the None object, printed as None. -/
def pyStrOpt : Option JVal → String
  | none => "None"
  | some v => pyStr v

def siLine (sysinfo : JVal) (k : String) : Except String String :=
  (jGet sysinfo k).map (fun v => "- " ++ k ++ ": " ++ pyStrOpt v)

def procLine (p : JVal) : Except String String := do
  let pid ← jIndex p "pid"
  let c ← jIndex p "cpu"
  let m ← jIndex p "mem"
  let cmd ← jIndex p "cmd"
  return "- pid=" ++ pyStr pid ++ " cpu=" ++ pyStr c ++ "% mem=" ++ pyStr m
    ++ "% cmd=" ++ pyStr cmd

/-- The pure rendering part of generate_health_report, applied to the
three gathered JSON results, faithful to the line list the source builds
and joins with newlines. -/
def renderReport (sysinfo cpu procs : JVal) : Except String String := do
  let siLines ← mapME (siLine sysinfo) sysinfoKeys
  let u ← jIndex cpu "cpu_usage_percent"
  let w ← jIndex cpu "window_sec"
  let ps ← jElems procs
  let procLines ← mapME procLine ps
  let lines := ["System Health Report", "====================", "", "System Info:"]
      ++ siLines
      ++ ["", "CPU Usage: " ++ pyStr u ++ "% (window " ++ pyStr w ++ "s)",
          "", "Top Processes (by CPU):"]
      ++ procLines
  return String.intercalate "\n" lines ++ "\n"

/-- generate_health_report from src/app/client.py with its default
arguments: gather the three results over the wire, then render. -/
def genReport (env : Env) : Except String String := do
  let si ← env.call "get_system_info" []
  let cpu ← env.call "get_cpu_usage" [("interval_sec", "0.5")]
  let procs ← env.call "list_processes" [("limit", "5")]
  renderReport si cpu procs

/-- Session state of one try_gemini_agent run. The trace records every
tool invocation attempted, in order; aborted means an exception escaped
to the outer handler, which makes the whole function return None. -/
structure AgentSt where
  accumulated : List (String × JVal)
  trace : List (String × Args)
  sendCount : Nat
  resp : GResponse
  aborted : Bool

/-- The inner for loops of one while iteration: execute every
function_call of the response that started the iteration, in order;
after each successful call record the result (keyed by tool name) and
send the function response, receiving the next chat response. A failed
call raises out of the loop, aborting the session. -/
def execCalls (env : Env) (svc : Svc) :
    List (String × Args) → AgentSt → Bool → AgentSt × Bool
  | [], st, made => (st, made)
  | (name, args) :: rest, st, made =>
    let st1 := { st with trace := st.trace ++ [(name, args)] }
    match env.call name args with
    | .error _ => ({ st1 with aborted := true }, made)
    | .ok v =>
      execCalls env svc rest
        { st1 with
          accumulated := setAssoc st1.accumulated name v,
          resp := svc st1.sendCount,
          sendCount := st1.sendCount + 1 }
        true

/-- The while loop of try_gemini_agent. The source counts iterations
upward with a loops variable bounded by the test loops < 3; here the
remaining allowance 3 - loops is the structural fuel argument, and the
returned Nat counts the iterations entered (the planning-executing round
trips). The loop breaks when an iteration makes no tool call, and stops
when a call aborts the session. -/
def whileLoop (env : Env) (svc : Svc) : Nat → AgentSt → Nat → AgentSt × Nat
  | 0, st, iters => (st, iters)
  | fuel + 1, st, iters =>
    let r := execCalls env svc st.resp.calls st false
    if r.1.aborted then (r.1, iters + 1)
    else if r.2 then whileLoop env svc fuel r.1 (iters + 1)
    else (r.1, iters + 1)

/-- State after chat.start_chat() and the initial send_message(goal):
the first response has been received and one message has been sent. -/
def initSt (svc : Svc) : AgentSt :=
  { accumulated := [], trace := [], sendCount := 1, resp := svc 0, aborted := false }

def runAgentLoop (env : Env) (svc : Svc) : AgentSt × Nat :=
  whileLoop env svc 3 (initSt svc) 0

def pyTruthy : Option String → Bool
  | none => false
  | some s => s ≠ ""

/-- resp.text or the accumulated-results JSON dump, the common tail of
try_gemini_agent (source lines 193-197). -/
def finalText (st : AgentSt) : Option String :=
  if st.resp.text ≠ "" then some st.resp.text else some (pyStr (.obj st.accumulated))

def hasAllThree (acc : List (String × JVal)) : Bool :=
  (lookupField acc "get_system_info").isSome
    && (lookupField acc "get_cpu_usage").isSome
    && (lookupField acc "list_processes").isSome

/-- stored.get("path") on the store_in_file result: a non-dict raises
(observable as the same None result), a missing key gives None. -/
def getPath : JVal → Option String
  | .obj fs => (lookupField fs "path").map pyStr
  | _ => none

/-- Source lines 182-185: content starts as None and becomes a freshly
generated health report when all three gather tools were called this
session; a failure while generating raises. -/
def finContent (env : Env) (st : AgentSt) : Except String (Option String) :=
  if hasAllThree st.accumulated then (genReport env).map some else .ok none

/-- Source line 186: if content is still falsy and the response has
text, content becomes that text. -/
def finC1 (st : AgentSt) (c0 : Option String) : Option String :=
  if pyTruthy c0 = false ∧ st.resp.text ≠ "" then some st.resp.text else c0

/-- Source lines 188-191: save the content and return the resulting
path (None when the result has no path field; a failed call raises,
observable as the same None overall result). -/
def finStore (env : Env) (outFile : String) (c : String) : Option String :=
  match env.call "store_in_file" [("file_name", outFile), ("content", c)] with
  | .error _ => none
  | .ok stored => getPath stored

/-- Source lines 186-197 after content was computed. -/
def finAfter (env : Env) (outFile : String) (st : AgentSt) (c0 : Option String) :
    Option String :=
  if pyTruthy (finC1 st c0) then finStore env outFile ((finC1 st c0).getD "")
  else finalText st

/-- The post-loop part of try_gemini_agent (source lines 181-197):
when an output file was requested and no store_in_file call happened,
build content from a fresh health report (only if all three gather tools
were called) or from the final response text, store it and return the
resulting path; otherwise return the final text or the serialized
accumulated results. An exception (failed call, failed report) returns
None through the outer handler. -/
def finalize (env : Env) (outFile : String) (st : AgentSt) : Option String :=
  if st.aborted then none
  else if outFile ≠ "" ∧ (lookupField st.accumulated "store_in_file").isNone then
    match finContent env st with
    | .error _ => none
    | .ok c0 => finAfter env outFile st c0
  else finalText st

/-- try_gemini_agent from src/app/client.py. The goal only shapes the
service conversation, which the svc oracle already ranges over. apiKey
is whether GOOGLE_API_KEY is configured. -/
def try_gemini_agent (apiKey : Bool) (env : Env) (svc : Svc) (outFile : String) :
    Option String :=
  if apiKey then finalize env outFile (runAgentLoop env svc).1 else none

/-- ASCII lower-casing of a string, goal.lower() in the source. -/
def strToLower (s : String) : String := String.mk (s.data.map Char.toLower)

/-- Substring test, Python pat in s. -/
def strContains (s pat : String) : Bool :=
  decide (pat.data <:+: s.data)

def insertStr (x : String) : List String → List String
  | [] => [x]
  | y :: ys => if x ≤ y then x :: y :: ys else y :: insertStr x ys

def sortStrs : List String → List String
  | [] => []
  | x :: xs => insertStr x (sortStrs xs)

/-- sorted(set(tools)): deduplicate, then sort ascending. -/
def sortedSet (l : List String) : List String := sortStrs l.dedup

/-- deterministic_agent from src/app/client.py: ordered keyword rules
over the lower-cased goal (g in the source, inlined here); an exception
from a tool call propagates. -/
def deterministic_agent (env : Env) (goal : String) (outFile : String) :
    Except String String := do
  let tools ← env.listTools
  if strContains (strToLower goal) "health"
      && (strContains (strToLower goal) "report" || strContains (strToLower goal) "summary") then
    let report ← genReport env
    if outFile ≠ "" ∧ tools.contains "store_in_file" then do
      let saved ← env.call "store_in_file" [("file_name", outFile), ("content", report)]
      let p ← jIndex saved "path"
      return pyStr p
    else
      return report
  else if strContains (strToLower goal) "cpu" && strContains (strToLower goal) "usage" then do
    let cpu ← env.call "get_cpu_usage" [("interval_sec", "0.5")]
    return pyStr cpu
  else if strContains (strToLower goal) "process" then do
    let procs ← env.call "list_processes" [("limit", "5")]
    return pyStr procs
  else
    return pyStr (.obj [("available_tools", .arr ((sortedSet tools).map JVal.prim))])

/-- The main entry point: run the Gemini agent, fall back to the
deterministic planner when it returns None. -/
def mainResult (apiKey : Bool) (env : Env) (svc : Svc) (goal outFile : String) :
    Except String String :=
  match try_gemini_agent apiKey env svc outFile with
  | some r => .ok r
  | none => deterministic_agent env goal outFile

/-! A well-shaped tool server environment: every call succeeds and the
four known tools answer with the result shapes src/app/main.py produces.
Used to state claims about client behavior over a reachable server. -/

structure GoodServer where
  tools : List String
  si : List (String × JVal)
  cpuPercent : String
  cpuWindow : String
  procs : List (String × String × String × String)
  storePath : String → String → String
  other : String → Args → JVal

def argStr (args : Args) (k : String) : String := (lookupStr args k).getD ""

def mkProcJ (q : String × String × String × String) : JVal :=
  .obj [("pid", .prim q.1), ("cpu", .prim q.2.1), ("mem", .prim q.2.2.1),
        ("cmd", .prim q.2.2.2)]

def GoodServer.env (G : GoodServer) : Env :=
  { listTools := .ok G.tools,
    call := fun name args =>
      if name = "get_system_info" then .ok (.obj G.si)
      else if name = "get_cpu_usage" then
        .ok (.obj [("cpu_usage_percent", .prim G.cpuPercent), ("window_sec", .prim G.cpuWindow)])
      else if name = "list_processes" then .ok (.arr (G.procs.map mkProcJ))
      else if name = "store_in_file" then
        .ok (.obj [("path", .prim (G.storePath (argStr args "file_name") (argStr args "content")))])
      else .ok (G.other name args) }

def siLineStr (m : List (String × JVal)) (k : String) : String :=
  "- " ++ k ++ ": " ++ pyStrOpt (lookupField m k)

def procLineStr (q : String × String × String × String) : String :=
  "- pid=" ++ q.1 ++ " cpu=" ++ q.2.1 ++ "% mem=" ++ q.2.2.1 ++ "% cmd=" ++ q.2.2.2

/-- Closed form of the report text for given gathered data. -/
def reportStr (m : List (String × JVal)) (u w : String)
    (qs : List (String × String × String × String)) : String :=
  String.intercalate "\n" (["System Health Report", "====================", "", "System Info:"]
      ++ sysinfoKeys.map (siLineStr m)
      ++ ["", "CPU Usage: " ++ u ++ "% (window " ++ w ++ "s)",
          "", "Top Processes (by CPU):"]
      ++ qs.map procLineStr) ++ "\n"

def goodReport (G : GoodServer) : String :=
  reportStr G.si G.cpuPercent G.cpuWindow G.procs

/-! Helper functions and lemmas shared by the claim theorems. -/

def exOk {α : Type} : Except String α → Bool
  | .ok _ => true
  | .error _ => false

/-- Assoc lookup on the filesystem file mapping. -/
def lookupPath (l : List (PyPath × String)) (p : PyPath) : Option String :=
  match l with
  | [] => none
  | (q, c) :: rest => if q = p then some c else lookupPath rest p

theorem lookupPath_setAssoc (l : List (PyPath × String)) (p : PyPath) (c : String) :
    lookupPath (setAssoc l p c) p = some c := by
  induction l with
  | nil => simp [setAssoc, lookupPath]
  | cons q rest ih =>
    obtain ⟨q1, c1⟩ := q
    by_cases h : q1 = p
    · simp [setAssoc, lookupPath, h]
    · simp [setAssoc, lookupPath, h, ih]

theorem prepend_ne_empty (s t : String) (h : s ≠ "") : s ++ t ≠ "" := by
  intro hc
  apply h
  have hd := congrArg String.data hc
  rw [String.data_append] at hd
  have hs : s.data = [] := (List.append_eq_nil.mp hd).1
  cases s with
  | mk data =>
    cases hs
    rfl

theorem append_ne_empty_right (s t : String) (h : t ≠ "") : s ++ t ≠ "" := by
  intro hc
  apply h
  have hd := congrArg String.data hc
  rw [String.data_append] at hd
  have ht : t.data = [] := (List.append_eq_nil.mp hd).2
  cases t with
  | mk data =>
    cases ht
    rfl

theorem append_newline_ne_empty (s : String) : s ++ "\n" ≠ "" :=
  append_ne_empty_right s "\n" (by decide)

theorem pyStr_obj_ne_empty (l : List (String × JVal)) : pyStr (.obj l) ≠ "" := by
  have he : pyStr (.obj l) = "\x7b" ++ pyStrFields l ++ "\x7d" := by
    simp [pyStr]
  rw [he]
  exact append_ne_empty_right _ _ (by decide)

theorem pyStr_arr_ne_empty (l : List JVal) : pyStr (.arr l) ≠ "" := by
  have he : pyStr (.arr l) = "[" ++ pyStrElems l ++ "]" := by
    simp [pyStr]
  rw [he]
  exact append_ne_empty_right _ _ (by decide)

theorem mem_foldl_addDir (l : List PyPath) (ds : List PyPath) (x : PyPath)
    (h : x ∈ ds) : x ∈ l.foldl addDir ds := by
  induction l generalizing ds with
  | nil => exact h
  | cons d rest ih =>
    apply ih
    unfold addDir
    by_cases hd : d ∈ ds
    · rw [if_pos hd]; exact h
    · rw [if_neg hd]; exact List.mem_append_left _ h

theorem self_mem_foldl_addDir (l : List PyPath) (ds : List PyPath) :
    ∀ d ∈ l, d ∈ l.foldl addDir ds := by
  induction l generalizing ds with
  | nil => intro d hd; cases hd
  | cons a rest ih =>
    intro d hd
    rcases List.mem_cons.mp hd with heq | hmem
    · subst heq
      simp only [List.foldl_cons]
      apply mem_foldl_addDir
      unfold addDir
      by_cases ha : d ∈ ds
      · rw [if_pos ha]; exact ha
      · rw [if_neg ha]; exact List.mem_append_right _ (by simp)
    · exact ih (addDir ds a) d hmem

theorem foldl_addDir_of_subset (l : List PyPath) (ds : List PyPath)
    (h : ∀ d ∈ l, d ∈ ds) : l.foldl addDir ds = ds := by
  induction l with
  | nil => rfl
  | cons a rest ih =>
    simp only [List.foldl_cons]
    have ha : addDir ds a = ds := by
      unfold addDir
      rw [if_pos (h a (by simp))]
    rw [ha]
    exact ih (fun d hd => h d (List.mem_cons_of_mem _ hd))

theorem self_mem_pathAncestors (p : PyPath) : p ∈ pathAncestors p := by
  unfold pathAncestors
  apply List.mem_map.mpr
  refine ⟨p.components.length, ?_, ?_⟩
  · exact List.mem_range.mpr (by omega)
  · cases p with
    | mk a c => simp

theorem resolveComps_no_parent (l : List String) (h : ".." ∉ l) :
    ∀ acc, resolveComps acc l = acc ++ l := by
  induction l with
  | nil => intro acc; simp [resolveComps]
  | cons c rest ih =>
    intro acc
    have hc : c ≠ ".." := fun hc => h (hc ▸ List.mem_cons_self c rest)
    have hr : ".." ∉ rest := fun hr => h (List.mem_cons_of_mem _ hr)
    simp only [resolveComps, if_neg hc]
    rw [ih hr]
    simp

theorem mkdirParents_noop (fs : FS) (p : PyPath)
    (h : ∀ d ∈ pathAncestors p, d ∈ fs.dirs) : mkdirParents fs p = fs := by
  obtain ⟨ds, fl⟩ := fs
  simp only [mkdirParents]
  rw [FS.mk.injEq]
  exact ⟨foldl_addDir_of_subset _ _ h, rfl⟩

theorem mem_foldl_addDir_elim (l : List PyPath) (ds : List PyPath) (x : PyPath)
    (h : x ∈ l.foldl addDir ds) : x ∈ ds ∨ x ∈ l := by
  induction l generalizing ds with
  | nil => exact Or.inl h
  | cons d rest ih =>
    rcases ih (addDir ds d) h with h1 | h2
    · unfold addDir at h1
      by_cases hd : d ∈ ds
      · rw [if_pos hd] at h1
        exact Or.inl h1
      · rw [if_neg hd] at h1
        rcases List.mem_append.mp h1 with ha | hb
        · exact Or.inl ha
        · rw [List.mem_singleton] at hb
          exact Or.inr (hb ▸ List.mem_cons_self _ _)
    · exact Or.inr (List.mem_cons_of_mem _ h2)

theorem writeText_ok_inv (fs : FS) (p : PyPath) (c : String) (fs2 : FS)
    (h : writeText fs p c = .ok fs2) :
    resolvePath p ∉ fs.dirs ∧ parentPath (resolvePath p) ∈ fs.dirs
      ∧ fs2 = { fs with files := setAssoc fs.files (resolvePath p) c } := by
  unfold writeText at h
  by_cases h1 : resolvePath p ∈ fs.dirs
  · rw [if_pos h1] at h
    cases h
  · rw [if_neg h1] at h
    by_cases h2 : parentPath (resolvePath p) ∈ fs.dirs
    · rw [if_pos h2] at h
      injection h with h
      exact ⟨h1, h2, h.symm⟩
    · rw [if_neg h2] at h
      cases h

theorem writeText_error_msgs (fs : FS) (p : PyPath) (c : String) (e : String)
    (h : writeText fs p c = .error e) :
    e = "IsADirectoryError" ∨ e = "FileNotFoundError" := by
  unfold writeText at h
  by_cases h1 : resolvePath p ∈ fs.dirs
  · rw [if_pos h1] at h
    injection h with h
    exact Or.inl h.symm
  · rw [if_neg h1] at h
    by_cases h2 : parentPath (resolvePath p) ∈ fs.dirs
    · rw [if_pos h2] at h
      cases h
    · rw [if_neg h2] at h
      injection h with h
      exact Or.inr h.symm

/-- C7: store_in_file is idempotent for every filesystem state, file
name and content: the second identical call returns exactly the result
of the first (same path or same error) and leaves exactly the
filesystem state the first call left. This includes the raising cases:
the mkdir side effect of a failed call is already present on replay, so
the replay fails identically with no further change. -/
theorem c7_store_in_file_idempotent (fs : FS) (name content : String) :
    store_in_file (store_in_file fs name content).1 name content
      = store_in_file fs name content := by
  by_cases hname : name = ""
  · subst hname
    rfl
  · have hanc : ∀ d ∈ pathAncestors outDir, d ∈ (mkdirParents fs outDir).dirs :=
      self_mem_foldl_addDir _ _
    cases hw : writeText (mkdirParents fs outDir) (store_dest name) content with
    | error e =>
      have hfirst : store_in_file fs name content
          = (mkdirParents fs outDir, .error e) := by
        unfold store_in_file
        rw [if_neg hname, hw]
      rw [hfirst]
      unfold store_in_file
      rw [if_neg hname, mkdirParents_noop _ _ hanc, hw]
    | ok fs2 =>
      obtain ⟨hnd, hpar, hfs2⟩ := writeText_ok_inv _ _ _ _ hw
      have hfirst : store_in_file fs name content
          = (fs2, .ok (pathStr (store_dest name))) := by
        unfold store_in_file
        rw [if_neg hname, hw]
      rw [hfirst]
      unfold store_in_file
      rw [if_neg hname]
      have hdirs2 : fs2.dirs = (mkdirParents fs outDir).dirs := by
        rw [hfs2]
      have hmk2 : mkdirParents fs2 outDir = fs2 := by
        apply mkdirParents_noop
        intro d hd
        rw [hdirs2]
        exact hanc d hd
      have hfiles2 : fs2.files
          = setAssoc (mkdirParents fs outDir).files (resolvePath (store_dest name)) content := by
        rw [hfs2]
      have hsa : setAssoc fs2.files (resolvePath (store_dest name)) content = fs2.files := by
        rw [hfiles2]
        exact setAssoc_idem _ _ _
      have hw2 : writeText fs2 (store_dest name) content = .ok fs2 := by
        unfold writeText
        rw [if_neg (by rw [hdirs2]; exact hnd), if_pos (by rw [hdirs2]; exact hpar), hsa]
      rw [hmk2, hw2]

/-- Shared: the destination and its resolution for a single-component
relative file name. -/
theorem store_dest_single (name c : String)
    (hp : parsePath name = { absolute := false, components := [c] })
    (hdd : c ≠ "..") :
    store_dest name = { absolute := true, components := ["srv", "MCP", "output", c] }
    ∧ resolvePath (store_dest name)
        = { absolute := true, components := ["srv", "MCP", "output", c] } := by
  have hdest : store_dest name
      = { absolute := true, components := ["srv", "MCP", "output", c] } := by
    unfold store_dest
    rw [hp]
    rfl
  have hnodd : ".." ∉ ["srv", "MCP", "output", c] := by
    intro hm
    simp at hm
    exact hdd hm.symm
  refine ⟨hdest, ?_⟩
  rw [hdest]
  have hstep : resolvePath ({ absolute := true, components := ["srv", "MCP", "output", c] } : PyPath) = { absolute := true, components := resolveComps [] ["srv", "MCP", "output", c] } := rfl
  rw [hstep, resolveComps_no_parent _ hnodd []]
  rfl

/-- Shared: a single-component, traversal-free relative file name whose
destination is not an existing directory makes store_in_file succeed,
writing inside the freshly created output directory. -/
theorem store_ok_single (fs : FS) (name content c : String)
    (hp : parsePath name = { absolute := false, components := [c] })
    (hdd : c ≠ "..")
    (hnd : resolvePath (store_dest name) ∉ fs.dirs) :
    ∃ fs1, store_in_file fs name content = (fs1, .ok (pathStr (store_dest name)))
      ∧ outDir ∈ fs1.dirs
      ∧ lookupPath fs1.files (resolvePath (store_dest name)) = some content := by
  have hname : name ≠ "" := by
    intro hn
    subst hn
    rw [show parsePath ""
        = { absolute := false, components := ([] : List String) } from rfl] at hp
    injection hp with h1 h2
    cases h2
  obtain ⟨hdest, hres⟩ := store_dest_single name c hp hdd
  have hnd1 : resolvePath (store_dest name) ∉ (mkdirParents fs outDir).dirs := by
    intro hm
    rcases mem_foldl_addDir_elim (pathAncestors outDir) fs.dirs _ hm with ha | hb
    · exact hnd ha
    · rw [hres] at hb
      rw [show pathAncestors outDir = [
          { absolute := true, components := ([] : List String) },
          { absolute := true, components := ["srv"] },
          { absolute := true, components := ["srv", "MCP"] },
          { absolute := true, components := ["srv", "MCP", "output"] }] from rfl] at hb
      simp [PyPath.mk.injEq] at hb
  have hpar1 : parentPath (resolvePath (store_dest name)) ∈ (mkdirParents fs outDir).dirs := by
    rw [hres]
    rw [show parentPath { absolute := true, components := ["srv", "MCP", "output", c] }
        = outDir from rfl]
    exact self_mem_foldl_addDir _ _ outDir (self_mem_pathAncestors outDir)
  refine ⟨{ mkdirParents fs outDir with
      files := setAssoc (mkdirParents fs outDir).files
        (resolvePath (store_dest name)) content }, ?_, ?_, ?_⟩
  · unfold store_in_file
    rw [if_neg hname]
    rw [show writeText (mkdirParents fs outDir) (store_dest name) content
        = .ok { mkdirParents fs outDir with
            files := setAssoc (mkdirParents fs outDir).files
              (resolvePath (store_dest name)) content }
      from by
        unfold writeText
        rw [if_neg hnd1, if_pos hpar1]]
  · exact self_mem_foldl_addDir _ _ outDir (self_mem_pathAncestors outDir)
  · exact lookupPath_setAssoc _ _ _

/-- C8 amended: for every file name that parses to a single-component
relative name without parent-directory traversal, when no directory
already occupies the destination, the store_in_file call succeeds,
creates the output directory (the output subdirectory of the stable
base path) if absent, writes the content at the resolved destination
inside it, and returns a path pointing inside it. (The original claim
over every file name fails: an absolute name escapes the directory, see
the counterexample, and a multi-component or dot name makes the write
itself raise.) -/
theorem c8_store_inside_output_dir (fs : FS) (name content c : String)
    (hp : parsePath name = { absolute := false, components := [c] })
    (hdd : c ≠ "..")
    (hnd : resolvePath (store_dest name) ∉ fs.dirs) :
    ∃ fs1, store_in_file fs name content = (fs1, .ok (pathStr (store_dest name)))
      ∧ outDir ∈ fs1.dirs
      ∧ lookupPath fs1.files (resolvePath (store_dest name)) = some content
      ∧ pointsInside outDir (store_dest name) = true := by
  obtain ⟨fs1, h1, h2, h3⟩ := store_ok_single fs name content c hp hdd hnd
  refine ⟨fs1, h1, h2, h3, ?_⟩
  obtain ⟨hdest, hres⟩ := store_dest_single name c hp hdd
  unfold pointsInside
  rw [hres, show resolvePath outDir = outDir from rfl,
      show outDir = { absolute := true, components := ["srv", "MCP", "output"] } from rfl]
  rfl

/-- Witness for C8 (amended) at a concrete single-component file name. -/
theorem c8_store_inside_output_dir_witness :
    ∃ fs1, store_in_file { dirs := [], files := [] } "health_report.txt" "hi"
        = (fs1, .ok (pathStr (store_dest "health_report.txt")))
      ∧ outDir ∈ fs1.dirs
      ∧ lookupPath fs1.files (resolvePath (store_dest "health_report.txt")) = some "hi"
      ∧ pointsInside outDir (store_dest "health_report.txt") = true :=
  c8_store_inside_output_dir { dirs := [], files := [] } "health_report.txt" "hi"
    "health_report.txt" (by decide) (by decide) (by decide)

/-- Counterexample to C8 as stated: with the system tmp directory
present, an absolute file name makes a successful store_in_file call
return a path entirely outside the output directory (path traversal:
pathlib discards the left operand when the right one is absolute). -/
theorem c8_counterexample :
    (store_in_file { dirs := [{ absolute := true, components := ["tmp"] }], files := [] }
        "/tmp/evil.txt" "x").2 = .ok "/tmp/evil.txt"
    ∧ pointsInside outDir (store_dest "/tmp/evil.txt") = false
    ∧ resolvePath (store_dest "/tmp/evil.txt")
        = { absolute := true, components := ["tmp", "evil.txt"] } := by
  refine ⟨rfl, by decide, by decide⟩

/-- C9 amended: through the registry, the argument-validation failure
(file_name is required) happens exactly when the file_name argument is
missing or empty; a non-empty file name can still fail at the
filesystem, when the destination is an existing directory or its parent
directory does not exist. A call passing only a single-component,
traversal-free file name whose destination is not an existing directory
succeeds and writes an empty file, content defaulting to the empty
string. -/
theorem c9_store_tool_failure_modes (fs : FS) (args : List (String × String))
    (n c : String) :
    ((lookupStr args "file_name" = none ∨ lookupStr args "file_name" = some "") →
      (store_tool fs args).2 = .error "file_name is required")
    ∧ ((store_tool fs args).2 = .error "file_name is required" →
      (lookupStr args "file_name" = none ∨ lookupStr args "file_name" = some ""))
    ∧ (parsePath n = { absolute := false, components := [c] } → c ≠ ".." →
        resolvePath (store_dest n) ∉ fs.dirs →
        ∃ fs1, store_tool fs [("file_name", n)] = (fs1, .ok (pathStr (store_dest n)))
          ∧ lookupPath fs1.files (resolvePath (store_dest n)) = some "") := by
  refine ⟨?_, ?_, ?_⟩
  · intro h
    have hgetd : (lookupStr args "file_name").getD "" = "" := by
      rcases h with h | h
      · rw [h]
        rfl
      · rw [h]
        rfl
    unfold store_tool store_in_file
    rw [hgetd, if_pos rfl]
  · intro h
    by_cases hn : (lookupStr args "file_name").getD "" = ""
    · cases hopt : lookupStr args "file_name" with
      | none => exact Or.inl rfl
      | some s =>
        rw [hopt, Option.getD_some] at hn
        exact Or.inr (by rw [hn])
    · exfalso
      unfold store_tool store_in_file at h
      rw [if_neg hn] at h
      cases hw : writeText (mkdirParents fs outDir)
          (store_dest ((lookupStr args "file_name").getD ""))
          ((lookupStr args "content").getD "") with
      | error e =>
        rw [hw] at h
        injection h with h
        rcases writeText_error_msgs _ _ _ _ hw with he | he
        · rw [he] at h
          exact absurd h (by decide)
        · rw [he] at h
          exact absurd h (by decide)
      | ok fs2 =>
        rw [hw] at h
        cases h
  · intro hp hdd hnd
    rw [show store_tool fs [("file_name", n)] = store_in_file fs n "" from rfl]
    obtain ⟨fs1, h1, h2, h3⟩ := store_ok_single fs n "" c hp hdd hnd
    exact ⟨fs1, h1, h3⟩

/-- Witness for C9 (amended): a missing file_name fails with the
validation error, and a plain file name with no content argument writes
an empty file. -/
theorem c9_store_tool_failure_modes_witness :
    (store_tool { dirs := [], files := [] } []).2 = .error "file_name is required"
    ∧ ∃ fs1, store_tool { dirs := [], files := [] } [("file_name", "a.txt")]
          = (fs1, .ok (pathStr (store_dest "a.txt")))
        ∧ lookupPath fs1.files (resolvePath (store_dest "a.txt")) = some "" :=
  ⟨(c9_store_tool_failure_modes { dirs := [], files := [] } [] "a.txt" "a.txt").1
      (Or.inl rfl),
   (c9_store_tool_failure_modes { dirs := [], files := [] } [("file_name", "a.txt")]
      "a.txt" "a.txt").2.2 (by decide) (by decide) (by decide)⟩

/-- Counterexample to C9 as stated: a dot file name is non-empty, yet
the registry call fails, because the destination resolves to the output
directory itself and the write raises; a relative name with an
intermediate slash fails too, its parent directory not existing. -/
theorem c9_counterexample :
    (store_tool { dirs := [], files := [] } [("file_name", ".")]).2
        = .error "IsADirectoryError"
    ∧ lookupStr [("file_name", ".")] "file_name" = some "."
    ∧ ("." : String) ≠ ""
    ∧ (store_tool { dirs := [], files := [] }
        [("file_name", "a/b.txt"), ("content", "x")]).2 = .error "FileNotFoundError" := by
  refine ⟨rfl, rfl, by decide, rfl⟩


theorem mem_insertDesc (x z : ProcEntry) (l : List ProcEntry)
    (h : z ∈ insertDesc x l) : z = x ∨ z ∈ l := by
  induction l with
  | nil =>
    simp only [insertDesc, List.mem_singleton] at h
    exact Or.inl h
  | cons y ys ih =>
    simp only [insertDesc] at h
    by_cases hc : x.cpu < y.cpu
    · rw [if_pos hc] at h
      rcases List.mem_cons.mp h with h1 | h2
      · exact Or.inr (h1 ▸ List.mem_cons_self _ _)
      · rcases ih h2 with ha | hb
        · exact Or.inl ha
        · exact Or.inr (List.mem_cons_of_mem _ hb)
    · rw [if_neg hc] at h
      rcases List.mem_cons.mp h with h1 | h2
      · exact Or.inl h1
      · exact Or.inr h2

theorem pairwise_insertDesc (x : ProcEntry) (l : List ProcEntry)
    (h : List.Pairwise (fun a b => b.cpu ≤ a.cpu) l) :
    List.Pairwise (fun a b => b.cpu ≤ a.cpu) (insertDesc x l) := by
  induction l with
  | nil => simp [insertDesc]
  | cons y ys ih =>
    rcases List.pairwise_cons.mp h with ⟨hy, hys⟩
    simp only [insertDesc]
    by_cases hc : x.cpu < y.cpu
    · rw [if_pos hc]
      refine List.pairwise_cons.mpr ⟨?_, ih hys⟩
      intro z hz
      rcases mem_insertDesc x z ys hz with heq | hzys
      · exact heq ▸ le_of_lt hc
      · exact hy z hzys
    · rw [if_neg hc]
      refine List.pairwise_cons.mpr ⟨?_, h⟩
      intro z hz
      rcases List.mem_cons.mp hz with heq | hzys
      · subst heq
        omega
      · have := hy z hzys
        omega

theorem pairwise_sortByCpuDesc (l : List ProcEntry) :
    List.Pairwise (fun a b => b.cpu ≤ a.cpu) (sortByCpuDesc l) := by
  induction l with
  | nil => simp [sortByCpuDesc]
  | cons x xs ih => exact pairwise_insertDesc x _ ih

/-- C10: list_processes returns at most max(limit, 0) entries, sorted
descending by the cpu field, and for every limit at most zero it returns
the empty list (Python slicing with a zero stop). -/
theorem c10_list_processes_sorted_bounded (procs : List ProcEntry) (limit : Int) :
    (list_processes procs limit).length ≤ (max 0 limit).toNat
    ∧ List.Pairwise (fun a b => b.cpu ≤ a.cpu) (list_processes procs limit)
    ∧ (limit ≤ 0 → list_processes procs limit = []) := by
  refine ⟨?_, ?_, ?_⟩
  · unfold list_processes
    rw [List.length_take]
    exact Nat.min_le_left _ _
  · exact List.Pairwise.sublist (List.take_sublist _ _) (pairwise_sortByCpuDesc procs)
  · intro hle
    unfold list_processes
    have : (max 0 limit).toNat = 0 := by
      rw [max_eq_left hle]
      rfl
    rw [this]
    exact List.take_zero _

/-- Witness for C10, exercising the negative-limit conjunct concretely. -/
theorem c10_list_processes_sorted_bounded_witness :
    list_processes [{ pid := 1, cpu := 5, mem := 0, cmd := "a" },
                    { pid := 2, cpu := 9, mem := 0, cmd := "b" }] (-1) = []
    ∧ (list_processes [{ pid := 1, cpu := 5, mem := 0, cmd := "a" }] 3).length ≤ 3 :=
  ⟨(c10_list_processes_sorted_bounded _ (-1)).2.2 (by omega),
   (c10_list_processes_sorted_bounded [{ pid := 1, cpu := 5, mem := 0, cmd := "a" }] 3).1⟩

theorem whileLoop_iters_le (env : Env) (svc : Svc) :
    ∀ (fuel : Nat) (st : AgentSt) (iters : Nat),
      (whileLoop env svc fuel st iters).2 ≤ iters + fuel := by
  intro fuel
  induction fuel with
  | zero =>
    intro st iters
    simp [whileLoop]
  | succ n ih =>
    intro st iters
    simp only [whileLoop]
    by_cases h1 : (execCalls env svc st.resp.calls st false).1.aborted
    · rw [if_pos h1]
      simp only
      omega
    · rw [if_neg h1]
      by_cases h2 : (execCalls env svc st.resp.calls st false).2 = true
      · rw [if_pos h2]
        have := ih (execCalls env svc st.resp.calls st false).1 (iters + 1)
        omega
      · rw [if_neg h2]
        simp only
        omega

/-- C1: the Adaptive Agent Loop enters at most 3 planning-executing
round trips before finalization, whatever the generative service keeps
answering and however many CallRequests each answer carries. The loop
inside try_gemini_agent is runAgentLoop, whose second component counts
the while-iterations entered. -/
theorem c1_agent_loop_bound (env : Env) (svc : Svc) :
    (runAgentLoop env svc).2 ≤ 3 := by
  have := whileLoop_iters_le env svc 3 (initSt svc) 0
  simpa [runAgentLoop] using this

def trivEnv : Env :=
  { listTools := .ok [], call := fun _ _ => .ok (.prim "v") }

/-- Session state with a store_in_file result already accumulated, used
to exercise the finalizing step concretely. -/
def stWithStore : AgentSt :=
  { accumulated := [("store_in_file", .obj [("path", .prim "/srv/MCP/output/r.txt")])],
    trace := [], sendCount := 1,
    resp := { calls := [], text := "done" }, aborted := false }

/-- C4 amended: when a store_in_file CallRequest was already executed
this session, the finalizing step skips the save-content block entirely
and returns the final response text when nonempty, else the serialized
accumulated results; it does not return the stored path. -/
theorem c4_amended_finalize_skips_store (env : Env) (outFile : String) (st : AgentSt)
    (hab : st.aborted = false)
    (hs : (lookupField st.accumulated "store_in_file").isSome = true) :
    finalize env outFile st = finalText st := by
  unfold finalize
  rw [if_neg (by simp [hab])]
  rw [if_neg ?hcond]
  case hcond =>
    rintro ⟨h1, h2⟩
    cases hopt : lookupField st.accumulated "store_in_file" with
    | none =>
      rw [hopt] at hs
      exact absurd hs (by simp)
    | some v =>
      rw [hopt] at h2
      exact absurd h2 (by simp)

/-- Witness for C4 (amended) at a concrete environment and session. -/
theorem c4_amended_finalize_skips_store_witness :
    finalize trivEnv "out.txt" stWithStore = finalText stWithStore :=
  c4_amended_finalize_skips_store trivEnv "out.txt" stWithStore rfl rfl

def GC4 : GoodServer :=
  { tools := ["get_system_info", "get_cpu_usage", "list_processes", "store_in_file"],
    si := [], cpuPercent := "0.0", cpuWindow := "0.5", procs := [],
    storePath := fun f _ => "/srv/MCP/output/" ++ f,
    other := fun _ _ => .prim "ok" }

def svcC4 : Svc := fun n =>
  if n = 0 then
    { calls := [("store_in_file", [("file_name", "r.txt"), ("content", "hi")])], text := "" }
  else
    { calls := [], text := "All done." }

/-- Counterexample to C4 as stated: a session in which a store_in_file
CallRequest was executed (its result, with its path, sits in the
accumulated mapping) yet the loop returns the final response text,
not that path. -/
theorem c4_counterexample :
    try_gemini_agent true GC4.env svcC4 "out.txt" = some "All done."
    ∧ lookupField (runAgentLoop GC4.env svcC4).1.accumulated "store_in_file"
        = some (.obj [("path", .prim "/srv/MCP/output/r.txt")])
    ∧ ("All done." : String) ≠ "/srv/MCP/output/r.txt" :=
  ⟨rfl, rfl, by decide⟩

theorem execCalls_cons_ok (env : Env) (svc : Svc) (name : String) (args : Args)
    (v : JVal) (hv : env.call name args = .ok v) (rest : List (String × Args))
    (st : AgentSt) (made : Bool) :
    execCalls env svc ((name, args) :: rest) st made
      = execCalls env svc rest
          { accumulated := setAssoc st.accumulated name v,
            trace := st.trace ++ [(name, args)],
            sendCount := st.sendCount + 1,
            resp := svc st.sendCount,
            aborted := st.aborted } true := by
  simp only [execCalls, hv]

theorem execCalls_cons_err (env : Env) (svc : Svc) (name : String) (args : Args)
    (e : String) (hf : env.call name args = .error e) (rest : List (String × Args))
    (st : AgentSt) (made : Bool) :
    execCalls env svc ((name, args) :: rest) st made
      = ({ accumulated := st.accumulated, trace := st.trace ++ [(name, args)],
           sendCount := st.sendCount, resp := st.resp, aborted := true }, made) := by
  simp only [execCalls, hf]

/-- Shared: a turn whose CallRequests are any successful ones followed
by a failing one aborts exactly at the failing call, in any non-aborted
session state: the trace ends at the failing call (so the CallRequests
after it are never attempted) and the send counter advanced only for
the successful ones (so no failure message was sent back). -/
theorem execCalls_fail_spec (env : Env) (svc : Svc) (name : String) (args : Args)
    (e : String) (hf : env.call name args = .error e) :
    ∀ (pre : List (String × Args)),
      (∀ p ∈ pre, ∃ v, env.call p.1 p.2 = .ok v) →
      ∀ (post : List (String × Args)) (st : AgentSt) (made : Bool),
        st.aborted = false →
        (execCalls env svc (pre ++ (name, args) :: post) st made).1.aborted = true
        ∧ (execCalls env svc (pre ++ (name, args) :: post) st made).1.trace
            = st.trace ++ pre ++ [(name, args)]
        ∧ (execCalls env svc (pre ++ (name, args) :: post) st made).1.sendCount
            = st.sendCount + pre.length := by
  intro pre
  induction pre with
  | nil =>
    intro _ post st made hab
    simp only [List.nil_append]
    rw [execCalls_cons_err env svc name args e hf post st made]
    refine ⟨rfl, by simp, by simp⟩
  | cons p pre ih =>
    intro hpre post st made hab
    obtain ⟨n1, a1⟩ := p
    obtain ⟨v, hv⟩ := hpre (n1, a1) (List.mem_cons_self _ _)
    simp only [List.cons_append]
    rw [execCalls_cons_ok env svc n1 a1 v hv (pre ++ (name, args) :: post) st made]
    obtain ⟨hA, hT, hS⟩ := ih (fun q hq => hpre q (List.mem_cons_of_mem _ hq)) post
      { accumulated := setAssoc st.accumulated n1 v,
        trace := st.trace ++ [(n1, a1)],
        sendCount := st.sendCount + 1,
        resp := svc st.sendCount,
        aborted := st.aborted } true hab
    refine ⟨hA, ?_, ?_⟩
    · rw [hT]
      simp [List.append_assoc]
    · rw [hS]
      simp only [List.length_cons]
      omega

/-- Shared: a turn whose execution aborts ends the loop at once,
whatever fuel remains. -/
theorem whileLoop_succ_abort (env : Env) (svc : Svc) (fuel : Nat) (st : AgentSt)
    (iters : Nat) (h : (execCalls env svc st.resp.calls st false).1.aborted = true) :
    whileLoop env svc (fuel + 1) st iters
      = ((execCalls env svc st.resp.calls st false).1, iters + 1) := by
  simp only [whileLoop]
  rw [if_pos h]

/-- Shared: an aborted session makes the finalizing step return None. -/
theorem finalize_aborted_none (env : Env) (outFile : String) (st : AgentSt)
    (h : st.aborted = true) : finalize env outFile st = none := by
  unfold finalize
  rw [if_pos h]

/-- C2 amended: when a CallRequest invocation raises - at any position
within a turn and on any turn - the exception escapes the loop to the
outer handler: the turn aborts exactly at the failing call (later
CallRequests of the turn are never attempted and the send counter shows
no failure message was sent back), an aborted turn ends the loop at
once, and an aborted session makes try_gemini_agent return None, so
main falls back to the deterministic planner. -/
theorem c2_amended_failure_aborts_session (env : Env) (svc : Svc) (outFile : String)
    (pre post : List (String × Args)) (name : String) (args : Args) (e : String)
    (hpre : ∀ p ∈ pre, ∃ v, env.call p.1 p.2 = .ok v)
    (hf : env.call name args = .error e) :
    (∀ (st : AgentSt) (made : Bool), st.aborted = false →
        (execCalls env svc (pre ++ (name, args) :: post) st made).1.aborted = true
        ∧ (execCalls env svc (pre ++ (name, args) :: post) st made).1.trace
            = st.trace ++ pre ++ [(name, args)]
        ∧ (execCalls env svc (pre ++ (name, args) :: post) st made).1.sendCount
            = st.sendCount + pre.length)
    ∧ (∀ (fuel : Nat) (st : AgentSt) (iters : Nat),
        (execCalls env svc st.resp.calls st false).1.aborted = true →
        whileLoop env svc (fuel + 1) st iters
          = ((execCalls env svc st.resp.calls st false).1, iters + 1))
    ∧ (∀ st : AgentSt, st.aborted = true → finalize env outFile st = none)
    ∧ ((runAgentLoop env svc).1.aborted = true →
        try_gemini_agent true env svc outFile = none) := by
  refine ⟨fun st made hab => execCalls_fail_spec env svc name args e hf pre hpre post st made hab,
          fun fuel st iters h => whileLoop_succ_abort env svc fuel st iters h,
          fun st h => finalize_aborted_none env outFile st h,
          fun h => ?_⟩
  unfold try_gemini_agent
  rw [if_pos rfl]
  exact finalize_aborted_none env outFile _ h

def envC2 : Env :=
  { listTools := .ok ["tool_a", "tool_b"],
    call := fun n _ => if n = "tool_b" then .ok (.prim "B") else .error "boom" }

def svcC2 : Svc := fun n =>
  if n = 0 then { calls := [("tool_a", []), ("tool_b", [])], text := "hello" }
  else { calls := [], text := "hello" }

/-- Witness for C2 (amended) at the concrete failing environment. -/
theorem c2_amended_failure_aborts_session_witness :
    (execCalls envC2 svcC2 ([("tool_b", [])] ++ ("tool_a", []) :: [("tool_c", [])])
        (initSt svcC2) false).1.aborted = true
    ∧ (execCalls envC2 svcC2 ([("tool_b", [])] ++ ("tool_a", []) :: [("tool_c", [])])
        (initSt svcC2) false).1.trace
      = (initSt svcC2).trace ++ [("tool_b", [])] ++ [("tool_a", [])] := by
  have h := (c2_amended_failure_aborts_session envC2 svcC2 "out.txt"
      [("tool_b", [])] [("tool_c", [])] "tool_a" [] "boom"
      (by
        intro p hp
        rw [List.mem_singleton] at hp
        subst hp
        exact ⟨.prim "B", rfl⟩)
      rfl).1 (initSt svcC2) false rfl
  exact ⟨h.1, h.2.1⟩

/-- Counterexample to C2 as stated: the first CallRequest of the turn
fails, the second one would succeed, yet the session aborts with None
and the second CallRequest is never attempted (the trace holds only the
failing call), so the failure is never fed back to the service. -/
theorem c2_counterexample :
    try_gemini_agent true envC2 svcC2 "o" = none
    ∧ (runAgentLoop envC2 svcC2).1.trace = [("tool_a", [])]
    ∧ envC2.call "tool_b" [] = .ok (.prim "B") :=
  ⟨rfl, rfl, rfl⟩

/-! The report tail after the first line: the join of the remaining
lines, each preceded by the separator. Bridges String.intercalate for
structural reasoning. -/

def joinTailSep (s : String) : List String → String
  | [] => ""
  | a :: as => s ++ a ++ joinTailSep s as

theorem intercalate_go_eq (s : String) (as : List String) :
    ∀ acc, String.intercalate.go acc s as = acc ++ joinTailSep s as := by
  induction as with
  | nil =>
    intro acc
    show acc = acc ++ joinTailSep s []
    rw [show joinTailSep s [] = "" from rfl, String.append_empty]
  | cons a as ih =>
    intro acc
    show String.intercalate.go (acc ++ s ++ a) s as = acc ++ joinTailSep s (a :: as)
    rw [ih]
    simp [joinTailSep, String.append_assoc]

theorem intercalate_cons (s a : String) (as : List String) :
    String.intercalate s (a :: as) = a ++ joinTailSep s as := by
  show String.intercalate.go a s as = a ++ joinTailSep s as
  rw [intercalate_go_eq]

theorem mapME_ok_of_fn {α β : Type} (f : α → Except String β) (g : α → β)
    (h : ∀ a, f a = .ok (g a)) : ∀ l, mapME f l = .ok (l.map g) := by
  intro l
  induction l with
  | nil => rfl
  | cons x xs ih =>
    simp only [mapME, h x, ih, List.map_cons]
    rfl

theorem mapME_procLine_mkProcJ (qs : List (String × String × String × String)) :
    mapME procLine (qs.map mkProcJ) = .ok (qs.map procLineStr) := by
  induction qs with
  | nil => rfl
  | cons q qt ih =>
    have hp : procLine (mkProcJ q) = .ok (procLineStr q) := rfl
    simp only [List.map_cons, mapME, hp, ih]
    rfl

theorem except_bind_ok {α β : Type} (a : α) (f : α → Except String β) :
    ((Except.ok a : Except String α) >>= f) = f a := rfl

/-- Shared reduction: the report renderer on well-shaped gathered data
produces exactly the closed-form text. -/
theorem renderReport_eq (m : List (String × JVal)) (u w : String)
    (qs : List (String × String × String × String)) :
    renderReport (.obj m)
        (.obj [("cpu_usage_percent", .prim u), ("window_sec", .prim w)])
        (.arr (qs.map mkProcJ))
      = .ok (reportStr m u w qs) := by
  unfold renderReport
  rw [mapME_ok_of_fn (siLine (.obj m)) (siLineStr m) (fun k => rfl) sysinfoKeys,
      except_bind_ok]
  rw [show jIndex (JVal.obj [("cpu_usage_percent", .prim u), ("window_sec", .prim w)])
        "cpu_usage_percent" = Except.ok (JVal.prim u) from rfl,
      except_bind_ok]
  rw [show jIndex (JVal.obj [("cpu_usage_percent", .prim u), ("window_sec", .prim w)])
        "window_sec" = Except.ok (JVal.prim w) from rfl,
      except_bind_ok]
  rw [show jElems (JVal.arr (qs.map mkProcJ)) = Except.ok (qs.map mkProcJ) from rfl,
      except_bind_ok]
  rw [mapME_procLine_mkProcJ, except_bind_ok]
  rfl

/-- Shared: the rendered report begins with the fixed header. -/
theorem reportStr_header (m : List (String × JVal)) (u w : String)
    (qs : List (String × String × String × String)) :
    ∃ t, reportStr m u w qs = "System Health Report\n====================\n" ++ t := by
  refine ⟨"\nSystem Info:" ++ joinTailSep "\n" (sysinfoKeys.map (siLineStr m)
      ++ (["", "CPU Usage: " ++ u ++ "% (window " ++ w ++ "s)", "", "Top Processes (by CPU):"]
      ++ qs.map procLineStr)) ++ "\n", ?_⟩
  have h1 : reportStr m u w qs
      = "System Health Report" ++ joinTailSep "\n" ("====================" :: "" :: "System Info:"
          :: (sysinfoKeys.map (siLineStr m)
          ++ (["", "CPU Usage: " ++ u ++ "% (window " ++ w ++ "s)", "", "Top Processes (by CPU):"]
          ++ qs.map procLineStr))) ++ "\n" := by
    unfold reportStr
    rw [show (["System Health Report", "====================", "", "System Info:"]
          ++ sysinfoKeys.map (siLineStr m)
          ++ ["", "CPU Usage: " ++ u ++ "% (window " ++ w ++ "s)", "", "Top Processes (by CPU):"]
          ++ qs.map procLineStr : List String)
        = "System Health Report" :: "====================" :: "" :: "System Info:"
            :: (sysinfoKeys.map (siLineStr m)
            ++ (["", "CPU Usage: " ++ u ++ "% (window " ++ w ++ "s)", "", "Top Processes (by CPU):"]
            ++ qs.map procLineStr)) from by simp]
    rw [intercalate_cons]
  rw [h1]
  rfl

theorem reportStr_ne_empty (m : List (String × JVal)) (u w : String)
    (qs : List (String × String × String × String)) :
    reportStr m u w qs ≠ "" := by
  unfold reportStr
  exact append_newline_ne_empty _

/-- C6: on every triple of gathered results the Report Assembler emits
the fixed-order text: the header, then the ten system-info field lines
in catalog order (an absent field rendering as its name followed by
None), then one CPU line holding both the percentage and the window,
then one line per process in the order received; and the whole text
begins with the fixed header. -/
theorem c6_report_fixed_order (m : List (String × JVal)) (u w : String)
    (qs : List (String × String × String × String)) :
    renderReport (.obj m)
        (.obj [("cpu_usage_percent", .prim u), ("window_sec", .prim w)])
        (.arr (qs.map mkProcJ))
      = .ok (reportStr m u w qs)
    ∧ (∀ k, lookupField m k = none → siLineStr m k = "- " ++ k ++ ": None")
    ∧ ∃ t, reportStr m u w qs = "System Health Report\n====================\n" ++ t := by
  refine ⟨renderReport_eq m u w qs, ?_, reportStr_header m u w qs⟩
  intro k hk
  unfold siLineStr
  rw [hk]
  show "- " ++ k ++ ": " ++ "None" = "- " ++ k ++ ": None"
  simp [String.append_assoc]

/-- Witness for C6 at concrete gathered results, exercising the
absent-field conjunct at the platform key. -/
theorem c6_report_fixed_order_witness :
    renderReport (.obj [])
        (.obj [("cpu_usage_percent", .prim "12.3"), ("window_sec", .prim "0.5")])
        (.arr ([(("1" : String), ("9.0" : String), ("0.5" : String), ("init" : String))].map mkProcJ))
      = .ok (reportStr [] "12.3" "0.5" [("1", "9.0", "0.5", "init")])
    ∧ siLineStr [] "platform" = "- platform: None" :=
  ⟨(c6_report_fixed_order [] "12.3" "0.5" [("1", "9.0", "0.5", "init")]).1,
   (c6_report_fixed_order [] "12.3" "0.5" [("1", "9.0", "0.5", "init")]).2.1 "platform" rfl⟩

/-! Reduction lemmas for the well-shaped server environment. -/

theorem goodEnv_listTools (G : GoodServer) : G.env.listTools = .ok G.tools := rfl

theorem goodEnv_si (G : GoodServer) :
    G.env.call "get_system_info" [] = .ok (.obj G.si) := rfl

theorem goodEnv_cpu (G : GoodServer) :
    G.env.call "get_cpu_usage" [("interval_sec", "0.5")]
      = .ok (.obj [("cpu_usage_percent", .prim G.cpuPercent),
                   ("window_sec", .prim G.cpuWindow)]) := rfl

theorem goodEnv_procs (G : GoodServer) :
    G.env.call "list_processes" [("limit", "5")] = .ok (.arr (G.procs.map mkProcJ)) := rfl

theorem goodEnv_store (G : GoodServer) (f c : String) :
    G.env.call "store_in_file" [("file_name", f), ("content", c)]
      = .ok (.obj [("path", .prim (G.storePath f c))]) := rfl

theorem genReport_good (G : GoodServer) : genReport G.env = .ok (goodReport G) := by
  unfold genReport
  rw [goodEnv_si G, except_bind_ok, goodEnv_cpu G, except_bind_ok,
      goodEnv_procs G, except_bind_ok]
  exact renderReport_eq G.si G.cpuPercent G.cpuWindow G.procs

theorem goodReport_ne_empty (G : GoodServer) : goodReport G ≠ "" :=
  reportStr_ne_empty G.si G.cpuPercent G.cpuWindow G.procs

/-- Shared reduction of the planner on rule-1 goals over a well-shaped
server. -/
theorem planner_rule1 (G : GoodServer) (goal outFile : String)
    (hg : (strContains (strToLower goal) "health"
        && (strContains (strToLower goal) "report"
            || strContains (strToLower goal) "summary")) = true) :
    deterministic_agent G.env goal outFile
      = if outFile ≠ "" ∧ G.tools.contains "store_in_file"
        then .ok (G.storePath outFile (goodReport G))
        else .ok (goodReport G) := by
  unfold deterministic_agent
  rw [goodEnv_listTools G, except_bind_ok, if_pos hg, genReport_good G, except_bind_ok]
  by_cases hc : outFile ≠ "" ∧ G.tools.contains "store_in_file"
  · rw [if_pos hc, if_pos hc]
    rw [goodEnv_store G outFile (goodReport G), except_bind_ok]
    rw [show jIndex (JVal.obj [("path", JVal.prim (G.storePath outFile (goodReport G)))])
          "path" = Except.ok (JVal.prim (G.storePath outFile (goodReport G))) from rfl,
        except_bind_ok]
    rfl
  · rw [if_neg hc, if_neg hc]
    rfl

/-- C5 amended: for every goal whose lower-cased text contains health
and report or summary, the Deterministic Planner gathers the three
results (system info, CPU usage over the 0.5s window, top-5 processes)
and assembles the report; when a file-store operation is in the catalog
AND a non-empty output file name was supplied it persists the report and
returns the stored path, otherwise it returns the report text. (The
original claim omits the non-empty output-file condition the source
tests; see the counterexample.) -/
theorem c5_amended_planner_health_rule (G : GoodServer) (goal outFile : String)
    (hg : (strContains (strToLower goal) "health"
        && (strContains (strToLower goal) "report"
            || strContains (strToLower goal) "summary")) = true) :
    deterministic_agent G.env goal outFile
      = if outFile ≠ "" ∧ G.tools.contains "store_in_file"
        then .ok (G.storePath outFile (goodReport G))
        else .ok (goodReport G) :=
  planner_rule1 G goal outFile hg

def GC5 : GoodServer :=
  { tools := ["get_system_info", "get_cpu_usage", "list_processes", "store_in_file"],
    si := [], cpuPercent := "12.3", cpuWindow := "0.5", procs := [],
    storePath := fun f _ => "/srv/MCP/output/" ++ f,
    other := fun _ _ => .prim "ok" }

/-- Witness for C5 (amended) at a concrete catalog, goal and file name. -/
theorem c5_amended_planner_health_rule_witness :
    deterministic_agent GC5.env "health report" "out.txt"
      = if ("out.txt" : String) ≠ "" ∧ GC5.tools.contains "store_in_file"
        then .ok (GC5.storePath "out.txt" (goodReport GC5))
        else .ok (goodReport GC5) :=
  c5_amended_planner_health_rule GC5 "health report" "out.txt" (by decide)

/-- ASCII startsWith on the character lists (kernel-evaluable). -/
def strStartsWith (s p : String) : Bool := p.data.isPrefixOf s.data

/-- Counterexample to C5 as stated: the catalog does contain
store_in_file, yet with an empty output file name the planner returns
the report text (which starts with the report header, not with the
output-directory prefix every stored path of this server carries) and
persists nothing. -/
theorem c5_counterexample :
    deterministic_agent GC5.env "health report" "" = .ok (goodReport GC5)
    ∧ GC5.tools.contains "store_in_file" = true
    ∧ strStartsWith (goodReport GC5) "/srv/MCP/output/" = false
    ∧ strStartsWith (goodReport GC5) "System Health Report" = true := by
  refine ⟨?_, rfl, rfl, rfl⟩
  rfl

/-! C3: the entry point always yields a non-null, non-empty answer over
a reachable well-shaped server, whatever the generative service does. -/

theorem goodEnv_call_ok (G : GoodServer) (n : String) (a : Args) :
    ∃ v, G.env.call n a = .ok v := by
  unfold GoodServer.env
  dsimp only
  by_cases h1 : n = "get_system_info"
  · rw [if_pos h1]; exact ⟨_, rfl⟩
  · rw [if_neg h1]
    by_cases h2 : n = "get_cpu_usage"
    · rw [if_pos h2]; exact ⟨_, rfl⟩
    · rw [if_neg h2]
      by_cases h3 : n = "list_processes"
      · rw [if_pos h3]; exact ⟨_, rfl⟩
      · rw [if_neg h3]
        by_cases h4 : n = "store_in_file"
        · rw [if_pos h4]; exact ⟨_, rfl⟩
        · rw [if_neg h4]; exact ⟨_, rfl⟩

theorem execCalls_ok_preserves (env : Env) (svc : Svc)
    (hok : ∀ n a, ∃ v, env.call n a = .ok v) :
    ∀ (calls : List (String × Args)) (st : AgentSt) (made : Bool),
      st.aborted = false → (execCalls env svc calls st made).1.aborted = false := by
  intro calls
  induction calls with
  | nil =>
    intro st made h
    exact h
  | cons c rest ih =>
    intro st made h
    obtain ⟨n, a⟩ := c
    obtain ⟨v, hv⟩ := hok n a
    simp only [execCalls, hv]
    exact ih _ true h

theorem whileLoop_ok_not_aborted (env : Env) (svc : Svc)
    (hok : ∀ n a, ∃ v, env.call n a = .ok v) :
    ∀ (fuel : Nat) (st : AgentSt) (iters : Nat),
      st.aborted = false → (whileLoop env svc fuel st iters).1.aborted = false := by
  intro fuel
  induction fuel with
  | zero =>
    intro st iters h
    exact h
  | succ n ih =>
    intro st iters h
    simp only [whileLoop]
    have hA : (execCalls env svc st.resp.calls st false).1.aborted = false :=
      execCalls_ok_preserves env svc hok st.resp.calls st false h
    rw [if_neg (by simp [hA])]
    by_cases hm : (execCalls env svc st.resp.calls st false).2 = true
    · rw [if_pos hm]
      exact ih _ _ hA
    · rw [if_neg hm]
      exact hA

theorem runAgentLoop_not_aborted (env : Env) (svc : Svc)
    (hok : ∀ n a, ∃ v, env.call n a = .ok v) :
    (runAgentLoop env svc).1.aborted = false :=
  whileLoop_ok_not_aborted env svc hok 3 (initSt svc) 0 rfl

theorem finalText_ne (st : AgentSt) : ∃ r, finalText st = some r ∧ r ≠ "" := by
  unfold finalText
  by_cases ht : st.resp.text ≠ ""
  · rw [if_pos ht]
    exact ⟨_, rfl, ht⟩
  · rw [if_neg ht]
    exact ⟨_, rfl, pyStr_obj_ne_empty _⟩

theorem finStore_good (G : GoodServer) (outFile c : String) :
    finStore G.env outFile c = some (G.storePath outFile c) := by
  unfold finStore
  rw [goodEnv_store G outFile c]
  rfl

theorem pyTruthy_some (s : String) : pyTruthy (some s) = decide (s ≠ "") := rfl

theorem finAfter_some (env : Env) (outFile : String) (st : AgentSt) (R : String)
    (hR : R ≠ "") : finAfter env outFile st (some R) = finStore env outFile R := by
  unfold finAfter finC1
  simp [pyTruthy_some, hR]

theorem finAfter_none (env : Env) (outFile : String) (st : AgentSt) :
    finAfter env outFile st none
      = if st.resp.text ≠ "" then finStore env outFile st.resp.text
        else finalText st := by
  unfold finAfter finC1
  by_cases ht : st.resp.text ≠ ""
  · simp [pyTruthy_some, show pyTruthy none = false from rfl, ht]
  · simp [show pyTruthy none = false from rfl, ht]

theorem finalize_ok_c0 (env : Env) (outFile : String) (st : AgentSt)
    (c0 : Option String) (hab : st.aborted = false)
    (hbr : outFile ≠ "" ∧ (lookupField st.accumulated "store_in_file").isNone)
    (hc : finContent env st = .ok c0) :
    finalize env outFile st = finAfter env outFile st c0 := by
  unfold finalize
  rw [if_neg (by simp [hab]), if_pos hbr, hc]

theorem finalize_good (G : GoodServer) (hpath : ∀ f c, G.storePath f c ≠ "")
    (outFile : String) (st : AgentSt) (hab : st.aborted = false) :
    ∃ r, finalize G.env outFile st = some r ∧ r ≠ "" := by
  by_cases hbr : outFile ≠ "" ∧ (lookupField st.accumulated "store_in_file").isNone
  · by_cases h3 : hasAllThree st.accumulated = true
    · have hc : finContent G.env st = .ok (some (goodReport G)) := by
        unfold finContent
        rw [if_pos h3, genReport_good G]
        rfl
      rw [finalize_ok_c0 G.env outFile st _ hab hbr hc,
          finAfter_some G.env outFile st _ (goodReport_ne_empty G),
          finStore_good G outFile _]
      exact ⟨_, rfl, hpath _ _⟩
    · have hc : finContent G.env st = .ok none := by
        unfold finContent
        rw [if_neg h3]
      rw [finalize_ok_c0 G.env outFile st _ hab hbr hc, finAfter_none]
      by_cases ht : st.resp.text ≠ ""
      · rw [if_pos ht, finStore_good G outFile _]
        exact ⟨_, rfl, hpath _ _⟩
      · rw [if_neg ht]
        exact finalText_ne st
  · have heq : finalize G.env outFile st = finalText st := by
      unfold finalize
      rw [if_neg (by simp [hab]), if_neg hbr]
    rw [heq]
    exact finalText_ne st

theorem deterministic_good (G : GoodServer) (hpath : ∀ f c, G.storePath f c ≠ "")
    (goal outFile : String) :
    ∃ r, deterministic_agent G.env goal outFile = .ok r ∧ r ≠ "" := by
  by_cases h1 : (strContains (strToLower goal) "health"
      && (strContains (strToLower goal) "report"
          || strContains (strToLower goal) "summary")) = true
  · rw [planner_rule1 G goal outFile h1]
    by_cases hc : outFile ≠ "" ∧ G.tools.contains "store_in_file"
    · rw [if_pos hc]
      exact ⟨_, rfl, hpath _ _⟩
    · rw [if_neg hc]
      exact ⟨_, rfl, goodReport_ne_empty G⟩
  · unfold deterministic_agent
    rw [goodEnv_listTools G, except_bind_ok, if_neg h1]
    by_cases h2 : (strContains (strToLower goal) "cpu"
        && strContains (strToLower goal) "usage") = true
    · rw [if_pos h2, goodEnv_cpu G, except_bind_ok]
      exact ⟨_, rfl, pyStr_obj_ne_empty _⟩
    · rw [if_neg h2]
      by_cases h3 : strContains (strToLower goal) "process" = true
      · rw [if_pos h3, goodEnv_procs G, except_bind_ok]
        exact ⟨_, rfl, pyStr_arr_ne_empty _⟩
      · rw [if_neg h3]
        exact ⟨_, rfl, pyStr_obj_ne_empty _⟩

/-- C3: over a reachable well-shaped tool server (every call succeeds
and stored paths are the non-empty strings the real server returns),
the entry point yields a non-null, non-empty final answer for every
goal, output file name, credential state and generative-service
behavior, including a first-turn response with no text and no
CallRequests and an empty accumulated mapping. -/
theorem c3_final_answer_nonempty (G : GoodServer)
    (hpath : ∀ f c, G.storePath f c ≠ "")
    (apiKey : Bool) (svc : Svc) (goal outFile : String) :
    ∃ r, mainResult apiKey G.env svc goal outFile = .ok r ∧ r ≠ "" := by
  cases apiKey with
  | false =>
    have hnone : try_gemini_agent false G.env svc outFile = none := rfl
    unfold mainResult
    rw [hnone]
    exact deterministic_good G hpath goal outFile
  | true =>
    obtain ⟨r, hr, hne⟩ := finalize_good G hpath outFile (runAgentLoop G.env svc).1
      (runAgentLoop_not_aborted G.env svc (goodEnv_call_ok G))
    refine ⟨r, ?_, hne⟩
    unfold mainResult try_gemini_agent
    rw [if_pos rfl, hr]

def svcEmpty : Svc := fun _ => { calls := [], text := "" }

def GC3 : GoodServer :=
  { tools := ["get_system_info", "get_cpu_usage", "list_processes", "store_in_file"],
    si := [], cpuPercent := "5.0", cpuWindow := "0.5", procs := [],
    storePath := fun f _ => "/srv/MCP/output/" ++ f,
    other := fun _ _ => .prim "ok" }

/-- Witness for C3 at the exact corner the claim names: the service
answers the first turn with no text and no CallRequests, nothing is
accumulated, and no output file name is supplied. -/
theorem c3_final_answer_nonempty_witness :
    ∃ r, mainResult true GC3.env svcEmpty "make a health report" "" = .ok r ∧ r ≠ "" :=
  c3_final_answer_nonempty GC3 (fun f _ => prepend_ne_empty "/srv/MCP/output/" f (by decide))
    true svcEmpty "make a health report" ""

end MCP
